import Mathlib

/-!
Shallow embedding of the request authorization routing engine
(`proxy.ts`): the route matcher `createRouteMatcher`, the route
category matchers, and the ordered decision chain `proxy`.

Strings are modelled as Lean `String`; the JavaScript string helpers
used by the source (`includes`, `replace` with a string pattern, which
replaces only the first occurrence, `startsWith`, and truthiness of
`string | null | undefined`) are given explicit structural
definitions below so that every definition evaluates by kernel
reduction.
-/

/-- Find the first occurrence of `pat` in a character list, returning
the characters before the occurrence and the characters after it. -/
def splitFirst (pat : List Char) : List Char → Option (List Char × List Char)
  | [] => none
  | c :: cs =>
    if pat.isPrefixOf (c :: cs) then some ([], (c :: cs).drop pat.length)
    else
      match splitFirst pat cs with
      | some (pre, post) => some (c :: pre, post)
      | none => none

/-- Models JavaScript `s.includes(sub)` (for the substring uses in the
source; `sub` is always the non-empty wildcard marker there). -/
def jsIncludes (s sub : String) : Bool :=
  if sub.data.isEmpty then true else (splitFirst sub.data s.data).isSome

/-- Models JavaScript `s.replace(pat, repl)` with a string `pat`,
which replaces only the first occurrence. -/
def jsReplaceFirst (s pat repl : String) : String :=
  match splitFirst pat.data s.data with
  | some (pre, post) => ⟨pre ++ repl.data ++ post⟩
  | none => s

/-- Models JavaScript `s.startsWith(pre)`. -/
def strStartsWith (s pre : String) : Bool :=
  pre.data.isPrefixOf s.data

/-- Models JavaScript `s.endsWith(suf)` (used only on the
specification side of the matcher semantics). -/
def strEndsWith (s suf : String) : Bool :=
  suf.data.isSuffixOf s.data

/-- Drop the last `n` characters of a string (used only on the
specification side, to form the base of a wildcard pattern). -/
def strDropRight (s : String) (n : Nat) : String :=
  ⟨(s.data.reverse.drop n).reverse⟩

/-- The wildcard marker of the route pattern language. -/
def wildcard : String := "(.*)"

/-- Body of the predicate built by `createRouteMatcher`, for a single
route (the inner callback of the source's `routes.some`).  A route
matches when it is literally equal to the path; otherwise, when it
contains the wildcard marker, the path must equal the route with the
marker removed (first occurrence, as JavaScript `replace` does) or
start with that base followed by a slash. -/
def routeMatches (pathname route : String) : Bool :=
  if route == pathname then true
  else if jsIncludes route wildcard then
    let baseRoute := jsReplaceFirst route wildcard ""
    pathname == baseRoute || strStartsWith pathname (baseRoute ++ "/")
  else false

/-- `createRouteMatcher` from the source: builds a predicate on the
request path from a list of route patterns. -/
def createRouteMatcher (routes : List String) : String → Bool :=
  fun pathname => routes.any fun route => routeMatches pathname route

/-- Public routes that do not require authentication (source list). -/
def isPublicRoute : String → Bool :=
  createRouteMatcher
    [ "/",
      "/home",
      "/sign-in(.*)",
      "/sign-up(.*)",
      "/privacy",
      "/terms",
      "/robots.txt",
      "/sitemap.xml",
      "/favicon.ico",
      "/favicon.svg",
      "/favicon-96x96.png",
      "/apple-touch-icon.png",
      "/opengraph-image.png" ]

def isOnboardingRoute : String → Bool := createRouteMatcher ["/onboarding"]

def isRootRoute : String → Bool := createRouteMatcher ["/"]

def isProtectedRoute : String → Bool := createRouteMatcher ["/org(.*)", "/settings(.*)"]

def isApiRoute : String → Bool := createRouteMatcher ["/api(.*)"]

def isSignInVerifyRoute : String → Bool :=
  createRouteMatcher ["/sign-in/verify", "/sign-up/verify-email-address"]

def isAuthRoute : String → Bool := createRouteMatcher ["/sign-in(.*)", "/sign-up(.*)"]

/-- Session state consumed by the engine: whether the request is
authenticated and the active organization slug, if any. -/
structure SessionState where
  authenticated : Bool
  activeOrganizationSlug : Option String
deriving DecidableEq

/-- The engine's output: allow the request, or redirect to a target
path with query parameters. -/
inductive Decision where
  | Allow : Decision
  | Redirect (target : String) (query : List (String × String)) : Decision
deriving DecidableEq

/-- JavaScript truthiness of a `string | null | undefined` value:
`null`/`undefined` and the empty string are falsy. -/
def truthy : Option String → Bool
  | none => false
  | some s => !(s == "")

/-- The decision engine `proxy` from the source, as a pure function of
the request path, the session state and the sign-in attempt cookie
value.  The branch structure and order mirror the source exactly. -/
def proxy (path : String) (session : SessionState) (attemptMarker : Option String) : Decision :=
  if isApiRoute path then Decision.Allow
  else if isSignInVerifyRoute path then
    (if truthy attemptMarker then Decision.Allow
     else Decision.Redirect "/sign-in" [])
  else if session.authenticated && truthy session.activeOrganizationSlug then
    (if isProtectedRoute path then Decision.Allow
     else if isPublicRoute path && !isRootRoute path && !isAuthRoute path then Decision.Allow
     else Decision.Redirect ("/org/" ++ session.activeOrganizationSlug.getD "" ++ "/dashboard") [])
  else if session.authenticated && isOnboardingRoute path then Decision.Allow
  else if !session.authenticated && !isPublicRoute path then
    Decision.Redirect "/sign-in" [("redirect", path)]
  else if session.authenticated && !truthy session.activeOrganizationSlug then
    (if !isOnboardingRoute path then Decision.Redirect "/onboarding" []
     else Decision.Allow)
  else Decision.Allow

/-! ### Helper lemmas -/

lemma strData_append (a b : String) : (a ++ b).data = a.data ++ b.data := by
  cases a; cases b; rfl

lemma isPrefixOf_append_self (l t : List Char) : l.isPrefixOf (l ++ t) = true := by
  simp

lemma strStartsWith_append (pre rest : String) : strStartsWith (pre ++ rest) pre = true := by
  unfold strStartsWith
  rw [strData_append]
  exact isPrefixOf_append_self _ _

lemma strBeq_symm (a b : String) : (a == b) = (b == a) := by
  by_cases hab : a = b
  · subst hab; rfl
  · have h1 : (a == b) = false := by simp [hab]
    have h2 : (b == a) = false := by
      have hba : ¬ b = a := fun e => hab e.symm
      simp [hba]
    rw [h1, h2]

lemma routeMatches_exact (p r : String) (h : jsIncludes r wildcard = false) :
    routeMatches p r = (r == p) := by
  unfold routeMatches
  cases hr : (r == p) <;> simp [hr, h]

lemma routeMatches_wild (p r b : String) (hinc : jsIncludes r wildcard = true)
    (hrep : jsReplaceFirst r wildcard "" = b) :
    routeMatches p r = ((r == p) || (p == b) || strStartsWith p (b ++ "/")) := by
  unfold routeMatches
  cases hr : (r == p) <;> simp [hr, hinc, hrep, Bool.or_assoc]

lemma isApiRoute_eq (p : String) :
    isApiRoute p = (("/api(.*)" == p) || (p == "/api") || strStartsWith p "/api/") := by
  unfold isApiRoute createRouteMatcher
  simp only [List.any_cons, List.any_nil, Bool.or_false]
  rw [routeMatches_wild p "/api(.*)" "/api" (by decide) (by decide)]
  rfl

lemma isOnboardingRoute_eq (p : String) : isOnboardingRoute p = ("/onboarding" == p) := by
  unfold isOnboardingRoute createRouteMatcher
  simp only [List.any_cons, List.any_nil, Bool.or_false]
  rw [routeMatches_exact p "/onboarding" (by decide)]

lemma isRootRoute_eq (p : String) : isRootRoute p = ("/" == p) := by
  unfold isRootRoute createRouteMatcher
  simp only [List.any_cons, List.any_nil, Bool.or_false]
  rw [routeMatches_exact p "/" (by decide)]

lemma isSignInVerifyRoute_eq (p : String) :
    isSignInVerifyRoute p = (("/sign-in/verify" == p) || ("/sign-up/verify-email-address" == p)) := by
  unfold isSignInVerifyRoute createRouteMatcher
  simp only [List.any_cons, List.any_nil, Bool.or_false]
  rw [routeMatches_exact p "/sign-in/verify" (by decide),
    routeMatches_exact p "/sign-up/verify-email-address" (by decide)]

lemma isProtectedRoute_eq (p : String) :
    isProtectedRoute p =
      (("/org(.*)" == p) || (p == "/org") || strStartsWith p "/org/" ||
        (("/settings(.*)" == p) || (p == "/settings") || strStartsWith p "/settings/")) := by
  unfold isProtectedRoute createRouteMatcher
  simp only [List.any_cons, List.any_nil, Bool.or_false]
  rw [routeMatches_wild p "/org(.*)" "/org" (by decide) (by decide),
    routeMatches_wild p "/settings(.*)" "/settings" (by decide) (by decide)]
  rfl

lemma isAuthRoute_eq (p : String) :
    isAuthRoute p =
      (("/sign-in(.*)" == p) || (p == "/sign-in") || strStartsWith p "/sign-in/" ||
        (("/sign-up(.*)" == p) || (p == "/sign-up") || strStartsWith p "/sign-up/")) := by
  unfold isAuthRoute createRouteMatcher
  simp only [List.any_cons, List.any_nil, Bool.or_false]
  rw [routeMatches_wild p "/sign-in(.*)" "/sign-in" (by decide) (by decide),
    routeMatches_wild p "/sign-up(.*)" "/sign-up" (by decide) (by decide)]
  rfl

lemma org_dash_startsWith (slug : String) :
    strStartsWith ("/org/" ++ slug ++ "/dashboard") "/org/" = true := by
  unfold strStartsWith
  rw [strData_append, strData_append, List.append_assoc]
  exact isPrefixOf_append_self _ _

lemma org_dash_protected (slug : String) :
    isProtectedRoute ("/org/" ++ slug ++ "/dashboard") = true := by
  rw [isProtectedRoute_eq]
  simp [org_dash_startsWith]

lemma two_chars_of_eq_org_dash (a : String) (slug : String)
    (e : a = ("/org/" ++ slug ++ "/dashboard")) : a.data.get? 1 = some 'o' := by
  have e1 : a.data.get? 1 = ("/org/" ++ slug ++ "/dashboard").data.get? 1 := by rw [e]
  rw [strData_append, strData_append] at e1
  exact e1

lemma org_dash_api (slug : String) :
    isApiRoute ("/org/" ++ slug ++ "/dashboard") = false := by
  rw [isApiRoute_eq]
  have h1 : ¬ ("/api(.*)" : String) = ("/org/" ++ slug ++ "/dashboard") := by
    intro e
    have h := two_chars_of_eq_org_dash _ slug e
    have h' : (some 'a' : Option Char) = some 'o' := h
    exact absurd (Option.some.inj h') (by decide)
  have h2 : ¬ ("/org/" ++ slug ++ "/dashboard") = ("/api" : String) := by
    intro e
    have h := two_chars_of_eq_org_dash "/api" slug e.symm
    have h' : (some 'a' : Option Char) = some 'o' := h
    exact absurd (Option.some.inj h') (by decide)
  have h3 : strStartsWith ("/org/" ++ slug ++ "/dashboard") "/api/" = false := by
    unfold strStartsWith
    rw [strData_append, strData_append]
    rfl
  simp [h1, h2, h3]

lemma org_dash_verify (slug : String) :
    isSignInVerifyRoute ("/org/" ++ slug ++ "/dashboard") = false := by
  rw [isSignInVerifyRoute_eq]
  have h1 : ¬ ("/sign-in/verify" : String) = ("/org/" ++ slug ++ "/dashboard") := by
    intro e
    have h := two_chars_of_eq_org_dash _ slug e
    have h' : (some 's' : Option Char) = some 'o' := h
    exact absurd (Option.some.inj h') (by decide)
  have h2 : ¬ ("/sign-up/verify-email-address" : String) = ("/org/" ++ slug ++ "/dashboard") := by
    intro e
    have h := two_chars_of_eq_org_dash _ slug e
    have h' : (some 's' : Option Char) = some 'o' := h
    exact absurd (Option.some.inj h') (by decide)
  simp [h1, h2]

lemma signInVerify_subset_public (p : String) (h : isSignInVerifyRoute p = true) :
    isPublicRoute p = true := by
  rw [isSignInVerifyRoute_eq] at h
  simp at h
  rcases h with h1 | h1 <;> rw [← h1] <;> decide

/-! ### Specification-side pattern semantics (for the matcher
refinement claim) -/

/-- Spec-side pattern type: an exact path, or a prefix pattern with a
base. -/
inductive RoutePattern where
  | exact (p : String) : RoutePattern
  | prefixOf (b : String) : RoutePattern
deriving DecidableEq

/-- Spec-side matching: an exact pattern matches only the identical
path; a prefix pattern with base `b` matches `b` itself or anything
nested below `b/`. -/
def patternMatches (pat : RoutePattern) (path : String) : Bool :=
  match pat with
  | RoutePattern.exact p => path == p
  | RoutePattern.prefixOf b => path == b || strStartsWith path (b ++ "/")

/-- Interpretation of a pattern string in the spec's words: a string
ending in the wildcard marker denotes a prefix pattern whose base is
the string with the marker removed; any other string denotes an exact
pattern. -/
def denotePattern (route : String) : RoutePattern :=
  if strEndsWith route wildcard then RoutePattern.prefixOf (strDropRight route 4)
  else RoutePattern.exact route

/-- Spec-side matcher: the path matches the category when it matches
any pattern in the list. -/
def specMatcher (routes : List String) (path : String) : Bool :=
  routes.any fun route => patternMatches (denotePattern route) path

/-- Well-formed pattern string: wildcard-free, or carrying the
wildcard marker exactly once, as a suffix of a wildcard-free base. -/
def wfRoute (route : String) : Bool :=
  !(jsIncludes route wildcard) ||
    (strEndsWith route wildcard && !(jsIncludes (strDropRight route 4) wildcard))

lemma jsIncludes_wildcard (r : String) :
    jsIncludes r wildcard = (splitFirst ("(.*)".data) r.data).isSome := rfl

lemma splitFirst_cons_none (pat : List Char) (c : Char) (cs : List Char)
    (h : splitFirst pat (c :: cs) = none) :
    pat.isPrefixOf (c :: cs) = false ∧ splitFirst pat cs = none := by
  unfold splitFirst at h
  cases hp : pat.isPrefixOf (c :: cs) with
  | true => rw [hp] at h; simp at h
  | false =>
    rw [hp] at h
    simp only [Bool.false_eq_true, if_false] at h
    cases hs : splitFirst pat cs with
    | none => exact ⟨rfl, rfl⟩
    | some pr =>
      rw [hs] at h
      rcases pr with ⟨a, b⟩
      simp at h

lemma splitFirst_append_isSome (pre : List Char) :
    (splitFirst ("(.*)".data) (pre ++ "(.*)".data)).isSome = true := by
  induction pre with
  | nil => decide
  | cons c cs ih =>
    rw [List.cons_append]
    unfold splitFirst
    cases hp : (("(.*)".data).isPrefixOf (c :: (cs ++ "(.*)".data))) with
    | true => simp [hp]
    | false =>
      simp only [hp, Bool.false_eq_true, if_false]
      obtain ⟨pr, hx⟩ := Option.isSome_iff_exists.mp ih
      rcases pr with ⟨a, b⟩
      rw [hx]
      rfl

lemma wpat_no_straddle (c : Char) (cs : List Char)
    (hp : (("(.*)".data).isPrefixOf (c :: cs)) = false) :
    (("(.*)".data).isPrefixOf (c :: (cs ++ "(.*)".data))) = false := by
  simp only [show ("(.*)".data) = '(' :: '.' :: '*' :: ')' :: [] from rfl] at hp ⊢
  simp only [List.isPrefixOf] at hp ⊢
  cases h1 : ('(' == c) with
  | false => simp [h1]
  | true =>
    rw [h1] at hp
    simp only [Bool.true_and] at hp ⊢
    cases cs with
    | nil => decide
    | cons x cs2 =>
      simp only [List.cons_append, List.isPrefixOf] at hp ⊢
      cases h2 : ('.' == x) with
      | false => simp [h2]
      | true =>
        rw [h2] at hp
        simp only [Bool.true_and] at hp ⊢
        cases cs2 with
        | nil => decide
        | cons y cs3 =>
          simp only [List.cons_append, List.isPrefixOf] at hp ⊢
          cases h3 : ('*' == y) with
          | false => simp [h3]
          | true =>
            rw [h3] at hp
            simp only [Bool.true_and] at hp ⊢
            cases cs3 with
            | nil => decide
            | cons z cs4 =>
              simp only [List.cons_append, List.isPrefixOf] at hp ⊢
              cases h4 : (')' == z) with
              | false => simp [h4]
              | true =>
                rw [h4] at hp
                simp at hp

lemma splitFirst_clean_append (pre : List Char)
    (hc : splitFirst ("(.*)".data) pre = none) :
    splitFirst ("(.*)".data) (pre ++ "(.*)".data) = some (pre, []) := by
  induction pre with
  | nil => decide
  | cons c cs ih =>
    obtain ⟨hp, hc'⟩ := splitFirst_cons_none _ _ _ hc
    have hp2 := wpat_no_straddle c cs hp
    rw [List.cons_append]
    unfold splitFirst
    rw [hp2]
    simp only [Bool.false_eq_true, if_false]
    rw [ih hc']

lemma dropRight_append_wildcard (pre : List Char) :
    strDropRight ⟨pre ++ "(.*)".data⟩ 4 = ⟨pre⟩ := by
  unfold strDropRight
  congr 1
  show (((pre ++ "(.*)".data).reverse).drop 4).reverse = pre
  rw [List.reverse_append]
  rw [show ((("(.*)".data).reverse ++ pre.reverse).drop 4) = pre.reverse from
    List.drop_left' (by decide)]
  exact List.reverse_reverse pre

lemma strEndsWith_wildcard_iff (s : String) :
    strEndsWith s wildcard = true ↔ ∃ pre, s.data = pre ++ "(.*)".data := by
  unfold strEndsWith
  rw [List.isSuffixOf_iff_suffix]
  constructor
  · rintro ⟨t, ht⟩
    exact ⟨t, ht.symm⟩
  · rintro ⟨pre, hpre⟩
    exact ⟨pre, hpre.symm⟩

lemma routeMatches_spec (p r : String) (hwf : wfRoute r = true) :
    routeMatches p r = ((p == r) || patternMatches (denotePattern r) p) := by
  unfold wfRoute at hwf
  cases hinc : jsIncludes r wildcard with
  | false =>
    have hend : strEndsWith r wildcard = false := by
      cases he : strEndsWith r wildcard with
      | false => rfl
      | true =>
        obtain ⟨pre, hpre⟩ := (strEndsWith_wildcard_iff r).mp he
        have hsome := splitFirst_append_isSome pre
        rw [← hpre] at hsome
        rw [jsIncludes_wildcard] at hinc
        rw [hsome] at hinc
        cases hinc
    unfold denotePattern
    rw [hend]
    simp only [Bool.false_eq_true, if_false, patternMatches]
    unfold routeMatches
    cases hr : (r == p) with
    | true =>
      have : (p == r) = true := by rw [strBeq_symm]; exact hr
      simp [hr, this]
    | false =>
      have : (p == r) = false := by rw [strBeq_symm]; exact hr
      simp [hr, this, hinc]
  | true =>
    rw [hinc] at hwf
    simp only [Bool.not_true, Bool.false_or, Bool.and_eq_true, Bool.not_eq_true'] at hwf
    obtain ⟨hend, hclean⟩ := hwf
    obtain ⟨pre, hpre⟩ := (strEndsWith_wildcard_iff r).mp hend
    have hrmk : r = ⟨pre ++ "(.*)".data⟩ := by
      cases r with
      | mk d => exact congrArg String.mk hpre
    have hbase : strDropRight r 4 = ⟨pre⟩ := by
      rw [hrmk]
      exact dropRight_append_wildcard pre
    have hpre_none : splitFirst ("(.*)".data) pre = none := by
      rw [hbase] at hclean
      rw [jsIncludes_wildcard] at hclean
      cases hsf : splitFirst ("(.*)".data) pre with
      | none => rfl
      | some pr =>
        have : (splitFirst ("(.*)".data) (String.mk pre).data).isSome = true := by
          rw [show (String.mk pre).data = pre from rfl, hsf]
          rfl
        rw [this] at hclean
        cases hclean
    have hrep : jsReplaceFirst r wildcard "" = ⟨pre⟩ := by
      unfold jsReplaceFirst
      rw [show r.data = pre ++ "(.*)".data from hpre]
      rw [show wildcard.data = ("(.*)".data) from rfl]
      rw [splitFirst_clean_append pre hpre_none]
      simp
    unfold denotePattern
    rw [hend]
    simp only [if_true, patternMatches, hbase]
    unfold routeMatches
    cases hr : (r == p) with
    | true =>
      have : (p == r) = true := by rw [strBeq_symm]; exact hr
      simp [hr, this]
    | false =>
      have hpr : (p == r) = false := by rw [strBeq_symm]; exact hr
      simp [hr, hpr, hinc, hrep]

/-! ### Claim theorems -/

/-- C1: for every session state and attempt-marker value, and every
path in the api category (the exact path `/api` or any path beginning
with `/api/`, both of which the api matcher accepts), `proxy` returns
`Allow`: the API bypass is the first rule evaluated, so the decision
is independent of authentication, organization slug and attempt
marker. -/
theorem api_bypass_always_allows (path : String) (session : SessionState)
    (attemptMarker : Option String)
    (h : path = "/api" ∨ strStartsWith path "/api/" = true ∨ isApiRoute path = true) :
    proxy path session attemptMarker = Decision.Allow := by
  have hapi : isApiRoute path = true := by
    rcases h with h | h | h
    · subst h; decide
    · rw [isApiRoute_eq]; simp [h]
    · exact h
  unfold proxy
  simp [hapi]

theorem api_bypass_always_allows_witness :
    strStartsWith "/api/users" "/api/" = true ∧
      proxy "/api/users" ⟨false, none⟩ none = Decision.Allow :=
  ⟨by decide,
    api_bypass_always_allows "/api/users" ⟨false, none⟩ none (Or.inr (Or.inl (by decide)))⟩

/-- C2 counterexample: on `/sign-in/verify` with the attempt marker
present but carrying the empty string, the marker is present as an
`Option` value yet the engine redirects to `/sign-in` instead of
allowing, because the source tests JavaScript truthiness of the
cookie value and the empty string is falsy. -/
theorem verification_gate_counterexample :
    (some "" : Option String).isSome = true ∧
      proxy "/sign-in/verify" ⟨false, none⟩ (some "") = Decision.Redirect "/sign-in" [] ∧
      proxy "/sign-in/verify" ⟨false, none⟩ (some "") ≠ Decision.Allow :=
  ⟨rfl, by decide, by decide⟩

/-- C2 (amended): for every path in the signInVerify category and
every session state, `proxy` returns `Allow` when the attempt marker
is present with a non-empty value, and `Redirect` to `/sign-in` with
empty query when it is absent or empty; the outcome does not depend
on authentication or organization state. -/
theorem verification_gate (session : SessionState) (attemptMarker : Option String) (path : String)
    (hp : path = "/sign-in/verify" ∨ path = "/sign-up/verify-email-address") :
    (truthy attemptMarker = true → proxy path session attemptMarker = Decision.Allow) ∧
      (truthy attemptMarker = false →
        proxy path session attemptMarker = Decision.Redirect "/sign-in" []) := by
  have hver : isSignInVerifyRoute path = true := by
    rcases hp with h | h <;> subst h <;> decide
  have hapi : isApiRoute path = false := by
    rcases hp with h | h <;> subst h <;> decide
  unfold proxy
  rw [hapi, hver]
  constructor <;> intro h <;> simp [h]

theorem verification_gate_witness :
    proxy "/sign-in/verify" ⟨false, none⟩ (some "user@example.com") = Decision.Allow ∧
      proxy "/sign-in/verify" ⟨true, some "acme"⟩ none = Decision.Redirect "/sign-in" [] :=
  ⟨(verification_gate ⟨false, none⟩ (some "user@example.com") "/sign-in/verify"
      (Or.inl rfl)).1 (by decide),
    (verification_gate ⟨true, some "acme"⟩ none "/sign-in/verify"
      (Or.inl rfl)).2 (by decide)⟩

/-- C5: for an authenticated session without an organization slug and
any path outside the api and signInVerify categories, `proxy` returns
`Allow` exactly on `/onboarding` and `Redirect` to `/onboarding` with
empty query on every other path (including public paths), so the user
on `/onboarding` is never redirected. -/
theorem authenticated_no_org_onboarding (path : String) (m : Option String)
    (hapi : isApiRoute path = false) (hver : isSignInVerifyRoute path = false) :
    (path = "/onboarding" → proxy path ⟨true, none⟩ m = Decision.Allow) ∧
      (path ≠ "/onboarding" → proxy path ⟨true, none⟩ m = Decision.Redirect "/onboarding" []) := by
  constructor
  · intro h
    have honb : isOnboardingRoute path = true := by
      rw [isOnboardingRoute_eq, h]
      decide
    unfold proxy
    rw [hapi, hver]
    simp [honb, truthy]
  · intro h
    have hne : ¬ ("/onboarding" : String) = path := fun e => h e.symm
    have honb : isOnboardingRoute path = false := by
      rw [isOnboardingRoute_eq]
      simp [hne]
    unfold proxy
    rw [hapi, hver]
    simp [honb, truthy]

theorem authenticated_no_org_onboarding_witness :
    isApiRoute "/settings" = false ∧ isSignInVerifyRoute "/settings" = false ∧
      proxy "/onboarding" ⟨true, none⟩ none = Decision.Allow ∧
      proxy "/settings" ⟨true, none⟩ none = Decision.Redirect "/onboarding" [] :=
  ⟨by decide, by decide,
    (authenticated_no_org_onboarding "/onboarding" none (by decide) (by decide)).1 rfl,
    (authenticated_no_org_onboarding "/settings" none (by decide) (by decide)).2 (by decide)⟩

/-- C3 counterexample: an authenticated session whose organization
slug is `some ""` (present as an `Option` value), on the public path
`/terms` (neither root nor auth nor protected), is redirected to
`/onboarding` instead of allowed: the source tests JavaScript
truthiness of the slug and the empty string is falsy, so the
organization branch is skipped. -/
theorem org_user_routing_counterexample :
    proxy "/terms" ⟨true, some ""⟩ none = Decision.Redirect "/onboarding" [] ∧
      proxy "/terms" ⟨true, some ""⟩ none ≠ Decision.Allow :=
  ⟨by decide, by decide⟩

/-- C3 (amended): for every authenticated session whose organization
slug is `some slug` with `slug` non-empty, and every path outside the
api and signInVerify categories: protected paths are allowed; public
paths that are neither the root nor auth paths are allowed; every
other path is redirected to `/org/{slug}/dashboard` with empty query.
In particular `/org/{slug}/dashboard` itself is allowed, and `/` and
`/sign-in` are redirected to the dashboard. -/
theorem org_user_routing (slug : String) (hs : slug ≠ "") (path : String) (m : Option String)
    (hapi : isApiRoute path = false) (hver : isSignInVerifyRoute path = false) :
    (isProtectedRoute path = true → proxy path ⟨true, some slug⟩ m = Decision.Allow) ∧
      (isProtectedRoute path = false → isPublicRoute path = true → isRootRoute path = false →
        isAuthRoute path = false → proxy path ⟨true, some slug⟩ m = Decision.Allow) ∧
      (isProtectedRoute path = false →
        (isPublicRoute path = false ∨ isRootRoute path = true ∨ isAuthRoute path = true) →
        proxy path ⟨true, some slug⟩ m =
          Decision.Redirect ("/org/" ++ slug ++ "/dashboard") []) ∧
      proxy ("/org/" ++ slug ++ "/dashboard") ⟨true, some slug⟩ m = Decision.Allow ∧
      proxy "/" ⟨true, some slug⟩ m = Decision.Redirect ("/org/" ++ slug ++ "/dashboard") [] ∧
      proxy "/sign-in" ⟨true, some slug⟩ m =
        Decision.Redirect ("/org/" ++ slug ++ "/dashboard") [] := by
  have htr : truthy (some slug) = true := by
    unfold truthy
    simp [hs]
  refine ⟨?_, ?_, ?_, ?_, ?_, ?_⟩
  · intro hprot
    unfold proxy
    rw [hapi, hver]
    simp [htr, hprot]
  · intro hprot hpub hroot hauth
    unfold proxy
    rw [hapi, hver]
    simp [htr, hprot, hpub, hroot, hauth]
  · intro hprot hcase
    have hcond : (isPublicRoute path && !isRootRoute path && !isAuthRoute path) = false := by
      rcases hcase with h | h | h <;> simp [h]
    unfold proxy
    rw [hapi, hver]
    simp [htr, hprot, hcond]
  · unfold proxy
    simp [htr, org_dash_api, org_dash_verify, org_dash_protected]
  · unfold proxy
    simp [htr, show isApiRoute "/" = false from by decide,
      show isSignInVerifyRoute "/" = false from by decide,
      show isProtectedRoute "/" = false from by decide,
      show isRootRoute "/" = true from by decide]
  · unfold proxy
    simp [htr, show isApiRoute "/sign-in" = false from by decide,
      show isSignInVerifyRoute "/sign-in" = false from by decide,
      show isProtectedRoute "/sign-in" = false from by decide,
      show isAuthRoute "/sign-in" = true from by decide]

theorem org_user_routing_witness :
    ("test-org" : String) ≠ "" ∧ isApiRoute "/privacy" = false ∧
      isSignInVerifyRoute "/privacy" = false ∧
      proxy "/privacy" ⟨true, some "test-org"⟩ none = Decision.Allow ∧
      proxy "/" ⟨true, some "test-org"⟩ none = Decision.Redirect "/org/test-org/dashboard" [] :=
  ⟨by decide, by decide, by decide,
    (org_user_routing "test-org" (by decide) "/privacy" none (by decide) (by decide)).2.1
      (by decide) (by decide) (by decide) (by decide),
    (org_user_routing "test-org" (by decide) "/" none (by decide) (by decide)).2.2.2.2.1⟩

/-- C8: for an unauthenticated session the decision is independent of
the organization slug: `proxy` gives the same decision whether the
slug is absent or populated, for every path and attempt marker. -/
theorem unauthenticated_slug_independent (path : String) (m : Option String) (slug : String) :
    proxy path ⟨false, some slug⟩ m = proxy path ⟨false, none⟩ m := by
  unfold proxy
  simp

/-- C4: for every unauthenticated session and every path outside the
public and api categories, `proxy` redirects to `/sign-in` with query
exactly the single pair `redirect = path`; moreover no other rule
produces a redirect with a non-empty query: every redirect either has
an empty query or is the unauthenticated-non-public redirect with
target `/sign-in` and query `redirect = path`. -/
theorem unauthenticated_nonpublic_redirect (path : String) (session : SessionState)
    (m : Option String) (hauth : session.authenticated = false)
    (hpub : isPublicRoute path = false) (hapi : isApiRoute path = false) :
    proxy path session m = Decision.Redirect "/sign-in" [("redirect", path)] ∧
      (∀ (p : String) (s : SessionState) (mk : Option String) (t : String)
          (q : List (String × String)),
        proxy p s mk = Decision.Redirect t q →
          q = [] ∨
            (t = "/sign-in" ∧ q = [("redirect", p)] ∧ s.authenticated = false ∧
              isPublicRoute p = false)) := by
  constructor
  · have hver : isSignInVerifyRoute path = false := by
      cases hv : isSignInVerifyRoute path with
      | false => rfl
      | true => rw [signInVerify_subset_public path hv] at hpub; cases hpub
    unfold proxy
    rw [hapi, hver, hauth]
    simp [hpub]
  · intro p s mk t q h
    unfold proxy at h
    split_ifs at h
    all_goals
      first
        | exact Decision.noConfusion h
        | (injection h with ht hq
           first
             | exact Or.inl hq.symm
             | (have hc : (!s.authenticated && !isPublicRoute p) = true := by assumption
                rw [Bool.and_eq_true, Bool.not_eq_true', Bool.not_eq_true'] at hc
                exact Or.inr ⟨ht.symm, hq.symm, hc.1, hc.2⟩))

theorem unauthenticated_nonpublic_redirect_witness :
    isPublicRoute "/settings" = false ∧ isApiRoute "/settings" = false ∧
      proxy "/settings" ⟨false, none⟩ none =
        Decision.Redirect "/sign-in" [("redirect", "/settings")] :=
  ⟨by decide, by decide,
    (unauthenticated_nonpublic_redirect "/settings" ⟨false, none⟩ none rfl (by decide)
      (by decide)).1⟩

/-- Variant engine for the refinement claim C7: the rule allowing
authenticated users onto the onboarding path (rule 4) is deleted;
the onboarding path is instead allowed by the else branch of the
authenticated-without-organization rule. -/
def proxyWithoutOnboardingRule (path : String) (session : SessionState)
    (attemptMarker : Option String) : Decision :=
  if isApiRoute path then Decision.Allow
  else if isSignInVerifyRoute path then
    (if truthy attemptMarker then Decision.Allow
     else Decision.Redirect "/sign-in" [])
  else if session.authenticated && truthy session.activeOrganizationSlug then
    (if isProtectedRoute path then Decision.Allow
     else if isPublicRoute path && !isRootRoute path && !isAuthRoute path then Decision.Allow
     else Decision.Redirect ("/org/" ++ session.activeOrganizationSlug.getD "" ++ "/dashboard") [])
  else if !session.authenticated && !isPublicRoute path then
    Decision.Redirect "/sign-in" [("redirect", path)]
  else if session.authenticated && !truthy session.activeOrganizationSlug then
    (if !isOnboardingRoute path then Decision.Redirect "/onboarding" []
     else Decision.Allow)
  else Decision.Allow

/-- C7: the rule allowing authenticated users onto the onboarding
path is redundant: deleting it, and letting the else branch of the
authenticated-without-organization rule allow `/onboarding`, yields
an engine extensionally equal to `proxy` on every input (rule 3 has
already decided every authenticated-with-organization input before
rule 4 is reached). -/
theorem onboarding_rule_redundant (path : String) (session : SessionState) (m : Option String) :
    proxyWithoutOnboardingRule path session m = proxy path session m := by
  unfold proxy proxyWithoutOnboardingRule
  cases hA : session.authenticated <;>
    cases hT : truthy session.activeOrganizationSlug <;>
      cases hO : isOnboardingRoute path <;>
        simp [hA, hT, hO]

/-- C10: the engine never redirects a request to the path that was
requested: whenever `proxy` returns a redirect, its target differs
from the input path. -/
theorem no_self_redirect (path : String) (session : SessionState) (m : Option String)
    (t : String) (q : List (String × String))
    (h : proxy path session m = Decision.Redirect t q) : t ≠ path := by
  unfold proxy at h
  split_ifs at h
  -- the remaining goals are the four redirect branches
  case _ =>
    -- verification gate redirect: target /sign-in, path is a verify path
    injection h with ht hq
    intro e
    have hver : isSignInVerifyRoute path = true := by assumption
    rw [← e, ← ht] at hver
    exact absurd hver (by decide)
  case _ =>
    -- dashboard redirect: target is protected, path is not
    injection h with ht hq
    intro e
    have hprot : ¬ isProtectedRoute path = true := by assumption
    apply hprot
    rw [← e, ← ht]
    exact org_dash_protected _
  case _ =>
    -- sign-in redirect: path is not public, /sign-in is
    injection h with ht hq
    intro e
    have hpub : (!session.authenticated && !isPublicRoute path) = true := by assumption
    rw [Bool.and_eq_true, Bool.not_eq_true', Bool.not_eq_true'] at hpub
    have := hpub.2
    rw [← e, ← ht] at this
    exact absurd this (by decide)
  case _ =>
    -- onboarding redirect: path is not the onboarding path
    injection h with ht hq
    intro e
    have honb : (!isOnboardingRoute path) = true := by assumption
    rw [Bool.not_eq_true'] at honb
    rw [← e, ← ht] at honb
    exact absurd honb (by decide)

theorem no_self_redirect_witness :
    proxy "/settings" ⟨false, none⟩ none =
        Decision.Redirect "/sign-in" [("redirect", "/settings")] ∧
      ("/sign-in" : String) ≠ "/settings" :=
  ⟨by decide,
    no_self_redirect "/settings" ⟨false, none⟩ none "/sign-in" [("redirect", "/settings")]
      (by decide)⟩

/-- C6 counterexample: the matcher built from the single prefix
pattern `/sign-in(.*)` accepts the path that is literally equal to the
pattern text (the source checks raw equality before wildcard
handling), although under the claimed semantics no pattern matches
that path; the pattern is well-formed, so this is not an artefact of a
degenerate pattern. -/
theorem matcher_spec_counterexample :
    createRouteMatcher ["/sign-in(.*)"] "/sign-in(.*)" = true ∧
      specMatcher ["/sign-in(.*)"] "/sign-in(.*)" = false ∧
      wfRoute "/sign-in(.*)" = true :=
  ⟨by decide, by decide, by decide⟩

/-- C6 (amended): for every list of well-formed patterns (each either
wildcard-free, hence exact, or a wildcard-free base followed by the
wildcard marker) and every path, the matcher returns true iff some
pattern matches, where an exact pattern `p` matches iff `path == p`
and a prefix pattern with base `b` matches iff `path == b`, or `path`
starts with `b + "/"`, or `path` is literally equal to the raw
pattern text itself; consequently `/sign-in-extra` does not match the
`/sign-in(.*)` pattern while `/sign-in` and `/sign-in/verify` do. -/
theorem matcher_spec (routes : List String) (path : String)
    (hwf : ∀ r ∈ routes, wfRoute r = true) :
    createRouteMatcher routes path =
        routes.any (fun route => (path == route) || patternMatches (denotePattern route) path) ∧
      createRouteMatcher ["/sign-in(.*)"] "/sign-in-extra" = false ∧
      createRouteMatcher ["/sign-in(.*)"] "/sign-in" = true ∧
      createRouteMatcher ["/sign-in(.*)"] "/sign-in/verify" = true := by
  refine ⟨?_, by decide, by decide, by decide⟩
  induction routes with
  | nil => rfl
  | cons r rs ih =>
    unfold createRouteMatcher
    simp only [List.any_cons]
    have h1 := routeMatches_spec path r (hwf r (by simp))
    have h2 := ih fun x hx => hwf x (by simp [hx])
    unfold createRouteMatcher at h2
    rw [h1, h2]

theorem matcher_spec_witness :
    (∀ r ∈ (["/sign-in(.*)", "/terms"] : List String), wfRoute r = true) ∧
      createRouteMatcher ["/sign-in(.*)", "/terms"] "/sign-in/verify" =
        (["/sign-in(.*)", "/terms"] : List String).any
          (fun route => (("/sign-in/verify" : String) == route) ||
            patternMatches (denotePattern route) "/sign-in/verify") :=
  ⟨by decide,
    (matcher_spec ["/sign-in(.*)", "/terms"] "/sign-in/verify" (by decide)).1⟩

/-- C9: `proxy` is deterministic and total: equal inputs give equal
decisions, and every input yields a decision that is either `Allow`
or a `Redirect`, with no undecided case. -/
theorem proxy_deterministic_total (path : String) (session : SessionState) (m : Option String) :
    proxy path session m = proxy path session m ∧
      (proxy path session m = Decision.Allow ∨
        ∃ t q, proxy path session m = Decision.Redirect t q) := by
  refine ⟨rfl, ?_⟩
  cases h : proxy path session m with
  | Allow => exact Or.inl rfl
  | Redirect t q => exact Or.inr ⟨t, q, rfl⟩
